import Mathlib

/-!
Verification of the core server lifecycle and connection orchestration
subsystem of an OPC UA server (src/src/server/ua_server.c).

The C code is shallowly embedded: the `UA_Server` aggregate becomes the
`Server` structure below, `UA_String` values become `Option String`
(`none` models a string with a NULL data pointer, as produced by
`UA_STRING_NULL`; `UA_String_equal` compares the character content, so a
NULL string equals the empty string), and machine-integer casts are made
explicit (`% 65536` for the `(UA_UInt16)` casts).  External collaborators
(the event loop, the node store, `UA_parseEndpointUrl`, the allocator)
are passed in as explicit oracle arguments so that every function stays
executable and deterministic.  The build modelled is the default one:
the `UA_ENABLE_PUBSUB`, `UA_ENABLE_DISCOVERY`, `UA_ENABLE_ENCRYPTION`
and multicast `#ifdef` blocks are compiled out.
-/

set_option autoImplicit false

namespace UAServer

/-! ### Status codes (ua_statuscodes.h) -/

def UA_STATUSCODE_GOOD : Nat := 0
def UA_STATUSCODE_GOODCOMPLETESASYNCHRONOUSLY : Nat := 0x002E0000
def UA_STATUSCODE_BADINTERNALERROR : Nat := 0x80020000
def UA_STATUSCODE_BADOUTOFMEMORY : Nat := 0x80030000
def UA_STATUSCODE_BADNOTFOUND : Nat := 0x803E0000
def UA_STATUSCODE_BADINVALIDARGUMENT : Nat := 0x80AB0000
def UA_STATUSCODE_BADCONNECTIONREJECTED : Nat := 0x80AC0000
def UA_STATUSCODE_BADTCPENDPOINTURLINVALID : Nat := 0x80830000

/-- Lifecycle constant: `UA_SERVERLIFECYCLE_FRESH` is the first enum value. -/
def UA_SERVERLIFECYCLE_FRESH : Nat := 0

/-- `UA_MAXTIMEOUT`: max timeout in ms between main-loop iterations. -/
def UA_MAXTIMEOUT : Nat := 50

/-- `UA_DATETIME_MSEC`: number of 100ns ticks per millisecond. -/
def UA_DATETIME_MSEC : Int := 10000

/-! ### UA_String -/

/-- A `UA_String`.  `none` models a string whose `data` pointer is NULL
(`UA_STRING_NULL`); `some s` models a string with content `s`. -/
abbrev UAString := Option String

/-- Character content of a `UA_String`; a NULL string has empty content. -/
def uaContent (u : UAString) : String := u.getD ""

/-- Length of a `UA_String` as observed by `UA_String_equal` and friends. -/
def uaLen (u : UAString) : Nat := (uaContent u).length

/-- `UA_String_equal`: length plus byte-wise comparison of the content.
Two length-0 strings are equal regardless of their data pointers. -/
def uaStrEq (a b : UAString) : Bool := uaContent a == uaContent b

/-! ### Data model: the `UA_Server` aggregate

Pointer indirections of the C structures are inlined: a session entry
stores the `localCertificate` of its channel's security policy directly
(`current->session.header.channel->securityPolicy->localCertificate`),
and a channel entry stores its policy's `localCertificate` directly. -/

/-- One entry of the server's session list, reduced to the fields read by
this translation unit. -/
structure SessionEntry where
  authToken : Nat
  channelPolicyLocalCert : String
deriving DecidableEq

/-- One entry of the server's secure-channel tail queue. -/
structure ChannelEntry where
  policyLocalCert : String
deriving DecidableEq

/-- A `UA_EndpointDescription`, reduced to the fields read here. -/
structure Endpoint where
  serverCertificate : String
  securityPolicyUri : String
deriving DecidableEq

/-- A `UA_SecurityPolicy` from `config.securityPolicies`. -/
structure SecurityPolicy where
  policyUri : String
  localCertificate : String
  privateKey : String
deriving DecidableEq

/-- A `reverse_connect_context` list entry (creation-time fields). -/
structure RevEntry where
  handle : Nat
  hostname : String
  port : Nat
deriving DecidableEq

/-- An event source of the event loop.  `openOk` is the oracle for the
status that `cm->openConnection` would return for this manager. -/
structure EventSource where
  isConnectionManager : Bool
  protocol : String
  started : Bool
  openOk : Bool
deriving DecidableEq

/-- Event-loop lifecycle state (`UA_EventLoopState`). -/
inductive ELState where
  | fresh
  | started
  | stopped
deriving DecidableEq

/-- The `UA_Server` aggregate, restricted to the state read or written by
src/src/server/ua_server.c.  `retryCallbackRegistered` records whether the
reverse-connect retry cyclic callback is currently installed
(`setReverseConnectRetryCallback`). -/
structure Server where
  appUri : UAString
  namespaces : List UAString
  state : Nat
  startTime : Int
  endTime : Int
  shutdownDelay : Nat
  houseKeepingCallbackId : Nat
  elState : ELState
  sessions : List SessionEntry
  channels : List ChannelEntry
  endpoints : List Endpoint
  securityPolicies : List SecurityPolicy
  reverseConnects : List RevEntry
  lastReverseConnectHandle : Nat
  retryCallbackRegistered : Bool
  eventSources : List EventSource
deriving DecidableEq

/-- A server as produced by `UA_Server_init`: namespace 0 holds the OPC
Foundation URI, namespace 1 is `UA_STRING_NULL` (filled lazily). -/
def baseServer : Server where
  appUri := some "urn:open62541.server.application"
  namespaces := [some "http://opcfoundation.org/UA/", none]
  state := UA_SERVERLIFECYCLE_FRESH
  startTime := 0
  endTime := 0
  shutdownDelay := 0
  houseKeepingCallbackId := 0
  elState := ELState.fresh
  sessions := []
  channels := []
  endpoints := []
  securityPolicies := []
  reverseConnects := []
  lastReverseConnectHandle := 0
  retryCallbackRegistered := false
  eventSources := []

/-! ### Namespace handling -/

/-- Does slot 1 of the namespace array have a non-NULL `data` pointer?
(`server->namespaces[1].data` in C). -/
def ns1IsSet (u : Option UAString) : Bool :=
  match u with
  | some (some _) => true
  | _ => false

/-- `setupNs1Uri`: if the NS1 URI is not set, copy the application URI
from the configuration into slot 1. -/
def setupNs1Uri (srv : Server) : Server :=
  if ns1IsSet (srv.namespaces[1]?) then srv
  else { srv with namespaces := srv.namespaces.set 1 srv.appUri }

/-- The linear scan of `addNamespace`: index of the first table entry for
which `UA_String_equal(&name, &server->namespaces[i])` holds. -/
def nsFind (name : UAString) : List UAString → Option Nat
  | [] => none
  | u :: rest => if uaStrEq name u then some 0 else (nsFind name rest).map (· + 1)

/-- `addNamespace`.  `allocOk` is the allocator oracle: it covers both the
`UA_realloc` growing the array and the `UA_String_copy` of the new entry;
when either fails the function returns the index-0 sentinel with the
observable table unchanged.  The `(UA_UInt16)` casts of the returned index
are the explicit `% 65536`. -/
def addNamespace (allocOk : Bool) (srv : Server) (name : UAString) : Nat × Server :=
  let s1 := setupNs1Uri srv
  match nsFind name s1.namespaces with
  | some i => (i % 65536, s1)
  | none =>
    if allocOk then
      (s1.namespaces.length % 65536, { s1 with namespaces := s1.namespaces ++ [name] })
    else (0, s1)

/-- `getNamespaceByName`: status, the found index (the out-parameter is
written only on success) and the resulting server. -/
def getNamespaceByName (srv : Server) (uri : UAString) : Nat × Option Nat × Server :=
  let s1 := setupNs1Uri srv
  match nsFind uri s1.namespaces with
  | some i => (UA_STATUSCODE_GOOD, some i, s1)
  | none => (UA_STATUSCODE_BADNOTFOUND, none, s1)

/-- Outcome of `getNamespaceByIndex`: either a URI was copied out, or
`UA_STATUSCODE_BADNOTFOUND` was returned, or the guard was passed with an
index one past the end and `server->namespaces[namespaceIndex]` is read
out of bounds. -/
inductive NsLookupResult where
  | found (uri : UAString)
  | notFound
  | oobRead
deriving DecidableEq

/-- `getNamespaceByIndex`: the guard is `namespaceIndex > namespacesSize`
(the source uses a strict comparison), so `namespaceIndex == size` falls
through to the array access. -/
def getNamespaceByIndex (srv : Server) (idx : Nat) : NsLookupResult × Server :=
  let s1 := setupNs1Uri srv
  if s1.namespaces.length < idx then (NsLookupResult.notFound, s1)
  else
    match s1.namespaces[idx]? with
    | some u => (NsLookupResult.found u, s1)
    | none => (NsLookupResult.oobRead, s1)

/-- The NS1 slot of a server's namespace table. -/
def ns1Slot (srv : Server) : UAString :=
  match srv.namespaces[1]? with
  | some u => u
  | none => none

/-! ### Shutdown request -/

/-- `setServerShutdown`: returns whether the server should be shut down
immediately.  A pending deadline (`endTime != 0`) short-circuits before
anything is written; `now` is the oracle for `UA_DateTime_now()`. -/
def setServerShutdown (now : Int) (srv : Server) : Bool × Server :=
  if srv.endTime ≠ 0 then (false, srv)
  else if srv.shutdownDelay = 0 then (true, srv)
  else (false, { srv with endTime := now + (srv.shutdownDelay : Int) * UA_DATETIME_MSEC })

/-- `testShutdownCondition`: false while no shutdown was requested,
otherwise compares wall-clock time against the recorded deadline. -/
def testShutdownCondition (now : Int) (srv : Server) : Bool :=
  if srv.endTime = 0 then false
  else decide (srv.endTime < now)

/-! ### Certificate rotation -/

/-- `getSecurityPolicyByUri`: index of the first configured security
policy whose `policyUri` equals the argument (the C function returns a
pointer to that policy, rendered here as its index). -/
def getSecurityPolicyByUri (uri : String) : List SecurityPolicy → Option Nat
  | [] => none
  | p :: rest =>
    if uri == p.policyUri then some 0 else (getSecurityPolicyByUri uri rest).map (· + 1)

/-- Apply `f` to the element at index `i`, leaving other entries alone. -/
def modifyIdx {α : Type} : List α → Nat → (α → α) → List α
  | [], _, _ => []
  | x :: rest, 0, f => f x :: rest
  | x :: rest, i + 1, f => x :: modifyIdx rest i f

/-- `sp->updateCertificateAndPrivateKey(sp, *newCertificate,
*newPrivateKey)`, modelled from the spec: the security policy swaps in
the new certificate and private key (the helper lives outside this
translation unit). -/
def swapCert (newC newK : String) (p : SecurityPolicy) : SecurityPolicy :=
  { p with localCertificate := newC, privateKey := newK }

/-- The endpoint `while` loop of `UA_Server_updateCertificate`: every
endpoint whose `serverCertificate` equals the old certificate gets the
new certificate, and the security policy found by its URI is asked to
swap in the new certificate and private key
(`sp->updateCertificateAndPrivateKey`, modelled from the spec as
replacing the policy's certificate and key).  When no policy matches
the loop aborts with `UA_STATUSCODE_BADINTERNALERROR`, the current
endpoint already rewritten (the source updates the endpoint before the
policy lookup). -/
def updateEndpointsLoop (oldC newC newK : String) :
    List Endpoint → List SecurityPolicy → Nat × List Endpoint × List SecurityPolicy
  | [], pols => (UA_STATUSCODE_GOOD, [], pols)
  | ed :: rest, pols =>
    if ed.serverCertificate == oldC then
      match getSecurityPolicyByUri ed.securityPolicyUri pols with
      | none =>
        (UA_STATUSCODE_BADINTERNALERROR, { ed with serverCertificate := newC } :: rest, pols)
      | some j =>
        let t := updateEndpointsLoop oldC newC newK rest
          (modifyIdx pols j (swapCert newC newK))
        (t.1, { ed with serverCertificate := newC } :: t.2.1, t.2.2)
    else
      let t := updateEndpointsLoop oldC newC newK rest pols
      (t.1, ed :: t.2.1, t.2.2)

/-- `UA_Server_updateCertificate`.  The pointer arguments are `Option`s;
a NULL anywhere among them fails the `UA_CHECK` with
`UA_STATUSCODE_BADINTERNALERROR`.  Closing a session
(`UA_Server_removeSessionByToken`) and shutting down a channel
(`shutdownServerSecureChannel`) remove the entry from the respective
list (modelled from the spec: both helpers live outside this
translation unit). -/
def UA_Server_updateCertificate (server : Option Server)
    (oldCertificate newCertificate newPrivateKey : Option String)
    (closeSessions closeSecureChannels : Bool) : Nat × Option Server :=
  match server, oldCertificate, newCertificate, newPrivateKey with
  | some srv, some oldC, some newC, some newK =>
    let srv1 :=
      if closeSessions then
        { srv with sessions :=
            srv.sessions.filter (fun se => !(oldC == se.channelPolicyLocalCert)) }
      else srv
    let srv2 :=
      if closeSecureChannels then
        { srv1 with channels :=
            srv1.channels.filter (fun ce => !(ce.policyLocalCert == oldC)) }
      else srv1
    let t := updateEndpointsLoop oldC newC newK srv2.endpoints srv2.securityPolicies
    (t.1, some { srv2 with endpoints := t.2.1, securityPolicies := t.2.2 })
  | _, _, _, _ => (UA_STATUSCODE_BADINTERNALERROR, server)

/-! ### Reverse connect -/

/-- Is this event source a connection manager advertising `tcp`? -/
def tcpCM (es : EventSource) : Bool :=
  es.isConnectionManager && es.protocol == "tcp"

/-- `attemptReverseConnect`, observed through its status and the number
of `cm->openConnection` invocations.  The loop walks every event source;
non-connection-managers and non-tcp managers are skipped; meeting a tcp
manager that is not yet started returns
`UA_STATUSCODE_GOODCOMPLETESASYNCHRONOUSLY` at once; otherwise
`openConnection` is invoked and the loop continues with the next event
source (the source has no `break` after a successful open).  Mutation of
the per-entry context (zeroing `connectionId`, the transition to
*connecting* and the user state callback) does not affect the observables
of the claims and is omitted. -/
def attemptReverseConnect : List EventSource → Nat → Nat × Nat
  | [], res => (res, 0)
  | es :: rest, res =>
    if es.isConnectionManager = false then attemptReverseConnect rest res
    else if (es.protocol == "tcp") = false then attemptReverseConnect rest res
    else if es.started = false then (UA_STATUSCODE_GOODCOMPLETESASYNCHRONOUSLY, 0)
    else
      let r := if es.openOk then UA_STATUSCODE_GOOD else UA_STATUSCODE_BADCONNECTIONREJECTED
      let t := attemptReverseConnect rest r
      (t.1, t.2 + 1)

/-- Number of tcp connection managers preceding the first tcp connection
manager that is not started (all of them when every tcp manager is
started): exactly the managers on which `attemptReverseConnect` calls
`openConnection`. -/
def attemptOpenCount : List EventSource → Nat
  | [] => 0
  | es :: rest =>
    if tcpCM es then (if es.started then attemptOpenCount rest + 1 else 0)
    else attemptOpenCount rest

/-- `UA_Server_addReverseConnect`.  `parseResult` is the oracle for
`UA_parseEndpointUrl` (`none` = malformed URL), `allocOk` the oracle for
the `calloc` of the new entry.  When the reverse-connect list is empty
the 1 Hz retry callback is installed (`setReverseConnectRetryCallback`,
modelled from the spec as setting `retryCallbackRegistered`) before the
entry is allocated.  Returns the status, the resulting server, and the
value written through the `handle` out-parameter. -/
def UA_Server_addReverseConnect (parseResult : Option (String × Nat)) (allocOk : Bool)
    (srv : Server) : Nat × Server × Option Nat :=
  match parseResult with
  | none => (UA_STATUSCODE_BADTCPENDPOINTURLINVALID, srv, none)
  | some (hostname, port) =>
    let srv1 :=
      if srv.reverseConnects.isEmpty then { srv with retryCallbackRegistered := true }
      else srv
    if allocOk = false then (UA_STATUSCODE_BADOUTOFMEMORY, srv1, none)
    else
      let h := srv1.lastReverseConnectHandle + 1
      let entry : RevEntry := { handle := h, hostname := hostname, port := port }
      let srv2 := { srv1 with
        reverseConnects := entry :: srv1.reverseConnects,
        lastReverseConnectHandle := h }
      ((attemptReverseConnect srv2.eventSources UA_STATUSCODE_BADINTERNALERROR).1,
       srv2, some h)

/-! ### Main server loop -/

/-- Oracle inputs for `UA_Server_run_startup`: the callback id handed out
by `addCyclicCallback` for the housekeeping task, the statuses of
`eventLoop->start` and of `writeNs0VariableArray` for the ServerArray
node, and `UA_DateTime_now()`. -/
structure StartupEnv where
  hkCallbackId : Nat
  elStartStatus : Nat
  writeStatus : Nat
  now : Int
deriving DecidableEq

/-- Tail of `UA_Server_run_startup` past the event-loop start: set up the
NS1 URI, write the ServerArray node (aborting on failure), return `GOOD`
early when the lifecycle is strictly past *fresh*, otherwise sample the
start time and end with the assignment
`server->state = UA_SERVERLIFECYCLE_FRESH`.  The listener fan-out, the
discovery-URL derivation and the endpoint-description refresh only touch
state outside this model (their failures are logged, not returned). -/
def runStartupTail (env : StartupEnv) (s2 : Server) : Nat × Server :=
  if env.writeStatus ≠ UA_STATUSCODE_GOOD then (env.writeStatus, setupNs1Uri s2)
  else if UA_SERVERLIFECYCLE_FRESH < (setupNs1Uri s2).state then
    (UA_STATUSCODE_GOOD, setupNs1Uri s2)
  else (UA_STATUSCODE_GOOD,
        { setupNs1Uri s2 with startTime := env.now, state := UA_SERVERLIFECYCLE_FRESH })

/-- First step of `UA_Server_run_startup`: register the housekeeping
cyclic callback when none is registered (the status of
`UA_Server_addRepeatedCallback` is ignored by the source). -/
def runStartupHK (env : StartupEnv) (srv : Server) : Server :=
  if srv.houseKeepingCallbackId = 0 then
    { srv with houseKeepingCallbackId := env.hkCallbackId }
  else srv

/-- `UA_Server_run_startup` (non-NULL server): register the housekeeping
callback, start the event loop when it is not started (aborting on
failure), then `runStartupTail`. -/
def UA_Server_run_startup (env : StartupEnv) (srv : Server) : Nat × Server :=
  if (runStartupHK env srv).elState = ELState.started then
    runStartupTail env (runStartupHK env srv)
  else if env.elStartStatus = UA_STATUSCODE_GOOD then
    runStartupTail env { runStartupHK env srv with elState := ELState.started }
  else (env.elStartStatus, runStartupHK env srv)

/-- `UA_Server_run_iterate`, observed through the timeout it hands to
`eventLoop->run` (always `UA_MAXTIMEOUT`) and its return value: the
difference between `nextCyclicTime()` and `UA_DateTime_nowMonotonic()`
in ms — C `int64` division truncates toward zero — cast to `UA_UInt16`
(the explicit `% 65536` on the mathematical residue).  The PubSub-MQTT
pump and the multicast-discovery block are compiled out in the modelled
build. -/
def UA_Server_run_iterate (_srv : Server) (nextCyclicTime nowMonotonic : Int) : Nat × Nat :=
  (UA_MAXTIMEOUT,
   ((Int.tdiv (nextCyclicTime - nowMonotonic) UA_DATETIME_MSEC) % 65536).toNat)

/-! ### Helper lemmas: lists -/

theorem list_set_self {α : Type} (l : List α) (n : Nat) (a : α)
    (h : l[n]? = some a) : l.set n a = l := by
  induction l generalizing n with
  | nil => simp at h
  | cons x rest ih =>
    cases n with
    | zero => simp at h; simp [h]
    | succ m => simp at h ⊢; exact ih m h

/-! ### Helper lemmas: setupNs1Uri -/

theorem setupNs1Uri_appUri (srv : Server) : (setupNs1Uri srv).appUri = srv.appUri := by
  unfold setupNs1Uri; split <;> rfl

theorem setupNs1Uri_state (srv : Server) : (setupNs1Uri srv).state = srv.state := by
  unfold setupNs1Uri; split <;> rfl

theorem setupNs1Uri_length (srv : Server) :
    (setupNs1Uri srv).namespaces.length = srv.namespaces.length := by
  unfold setupNs1Uri; split
  · rfl
  · simp

theorem setupNs1Uri_eq_self_of_some (srv : Server) (v : String)
    (h : srv.namespaces[1]? = some (some v)) : setupNs1Uri srv = srv := by
  unfold setupNs1Uri; rw [h]; simp [ns1IsSet]

theorem setupNs1Uri_ns1_of_null (srv : Server) (h2 : 2 ≤ srv.namespaces.length)
    (h1 : srv.namespaces[1]? = some none) :
    (setupNs1Uri srv).namespaces[1]? = some srv.appUri := by
  unfold setupNs1Uri
  rw [h1]
  simp only [ns1IsSet, Bool.false_eq_true, if_false]
  simp [List.getElem?_set_self', Nat.lt_of_lt_of_le (by omega : 1 < 2) h2]

theorem setupNs1Uri_eq_self (srv : Server) (h : srv.namespaces[1]? = some srv.appUri) :
    setupNs1Uri srv = srv := by
  cases ha : srv.appUri with
  | some v => exact setupNs1Uri_eq_self_of_some srv v (ha ▸ h)
  | none =>
    unfold setupNs1Uri
    have hns : ns1IsSet srv.namespaces[1]? = false := by rw [h, ha]; rfl
    rw [hns]
    simp only [Bool.false_eq_true, if_false]
    rw [list_set_self srv.namespaces 1 srv.appUri h]

theorem setupNs1Uri_cases (srv : Server) (h2 : 2 ≤ srv.namespaces.length) :
    (setupNs1Uri srv).namespaces[1]? = some srv.appUri ∨
    (∃ v, srv.namespaces[1]? = some (some v) ∧ setupNs1Uri srv = srv) := by
  have hlt : 1 < srv.namespaces.length := by omega
  obtain ⟨u, hu⟩ : ∃ u, srv.namespaces[1]? = some u :=
    ⟨_, List.getElem?_eq_getElem hlt⟩
  cases u with
  | none => exact Or.inl (setupNs1Uri_ns1_of_null srv h2 hu)
  | some v => exact Or.inr ⟨v, hu, setupNs1Uri_eq_self_of_some srv v hu⟩

theorem setupNs1Uri_idem (srv : Server) (h2 : 2 ≤ srv.namespaces.length) :
    setupNs1Uri (setupNs1Uri srv) = setupNs1Uri srv := by
  rcases setupNs1Uri_cases srv h2 with h | ⟨v, _, h⟩
  · exact setupNs1Uri_eq_self _ (by rw [setupNs1Uri_appUri]; exact h)
  · rw [h]; exact h

theorem setupNs1Uri_append_eq_self (srv : Server) (h2 : 2 ≤ srv.namespaces.length)
    (name : UAString) :
    setupNs1Uri { setupNs1Uri srv with
                  namespaces := (setupNs1Uri srv).namespaces ++ [name] } =
    { setupNs1Uri srv with namespaces := (setupNs1Uri srv).namespaces ++ [name] } := by
  have hlen : 1 < (setupNs1Uri srv).namespaces.length := by
    rw [setupNs1Uri_length]; omega
  rcases setupNs1Uri_cases srv h2 with h | ⟨v, hv, h⟩
  · apply setupNs1Uri_eq_self
    show ((setupNs1Uri srv).namespaces ++ [name])[1]? = some (setupNs1Uri srv).appUri
    rw [List.getElem?_append_left hlen, setupNs1Uri_appUri]
    exact h
  · apply setupNs1Uri_eq_self_of_some _ v
    show ((setupNs1Uri srv).namespaces ++ [name])[1]? = some (some v)
    rw [List.getElem?_append_left hlen, h]
    exact hv

/-! ### Helper lemmas: nsFind -/

theorem nsFind_lt_length (name : UAString) (l : List UAString) (i : Nat)
    (h : nsFind name l = some i) : i < l.length := by
  induction l generalizing i with
  | nil => simp [nsFind] at h
  | cons u rest ih =>
    simp only [nsFind] at h
    split at h
    · cases h; simp
    · obtain ⟨j, hj, rfl⟩ := Option.map_eq_some'.mp h
      have := ih j hj
      simp
      omega

theorem nsFind_append_self (name : UAString) (l : List UAString)
    (h : nsFind name l = none) : nsFind name (l ++ [name]) = some l.length := by
  induction l with
  | nil => simp [nsFind, uaStrEq]
  | cons u rest ih =>
    simp only [nsFind] at h
    split at h
    · exact absurd h (by simp)
    · next hc =>
      have hrest : nsFind name rest = none := Option.map_eq_none'.mp h
      simp [nsFind, if_neg hc, ih hrest]

/-! ### Helper lemmas: addNamespace branches -/

theorem addNamespace_eq_found (allocOk : Bool) (srv : Server) (name : UAString) (i : Nat)
    (hf : nsFind name (setupNs1Uri srv).namespaces = some i) :
    addNamespace allocOk srv name = (i % 65536, setupNs1Uri srv) := by
  simp only [addNamespace, hf]

theorem addNamespace_eq_append (srv : Server) (name : UAString)
    (hf : nsFind name (setupNs1Uri srv).namespaces = none) :
    addNamespace true srv name =
      ((setupNs1Uri srv).namespaces.length % 65536,
       { setupNs1Uri srv with namespaces := (setupNs1Uri srv).namespaces ++ [name] }) := by
  simp only [addNamespace, hf, if_true]

theorem addNamespace_eq_oom (srv : Server) (name : UAString)
    (hf : nsFind name (setupNs1Uri srv).namespaces = none) :
    addNamespace false srv name = (0, setupNs1Uri srv) := by
  simp [addNamespace, hf]

/-! ### Claim C1 -/

/-- Claim C1 (code bug, evaluated at the failing input): on the base
server, whose namespace table has size 2, `getNamespaceByIndex` with
index 2 — equal to the table size — passes the `index > size` guard and
reads `namespaces[2]` past the end of the table instead of returning
`UA_STATUSCODE_BADNOTFOUND`. -/
theorem getNamespaceByIndex_reads_past_end :
    (getNamespaceByIndex baseServer 2).1 = NsLookupResult.oobRead ∧
    (getNamespaceByIndex baseServer 2).1 ≠ NsLookupResult.notFound ∧
    baseServer.namespaces.length = 2 := by
  decide

/-! ### Claim C4 -/

/-- Claim C4 (confirmed): with a successful allocator, the index returned
by `addNamespace` is the position of the first occurrence of the URI in
the resulting namespace table, and a second add of the same URI returns
the very same index and server (in particular the table size is
unchanged).  The hypotheses are the `UA_Server_init` invariant (the table
starts with namespaces 0 and 1) and that the table is small enough for
the `(UA_UInt16)` cast of the index to be lossless. -/
theorem addNamespace_first_occurrence_idempotent (srv : Server) (name : UAString)
    (h2 : 2 ≤ srv.namespaces.length) (hlen : srv.namespaces.length < 65536) :
    nsFind name (addNamespace true srv name).2.namespaces =
      some (addNamespace true srv name).1 ∧
    addNamespace true (addNamespace true srv name).2 name = addNamespace true srv name := by
  have hsl : (setupNs1Uri srv).namespaces.length = srv.namespaces.length :=
    setupNs1Uri_length srv
  cases hf : nsFind name (setupNs1Uri srv).namespaces with
  | some i =>
    have hi : i < srv.namespaces.length := hsl ▸ nsFind_lt_length _ _ _ hf
    have him : i % 65536 = i := Nat.mod_eq_of_lt (by omega)
    have h1 : addNamespace true srv name = (i, setupNs1Uri srv) := by
      rw [addNamespace_eq_found true srv name i hf, him]
    rw [h1]
    refine ⟨hf, ?_⟩
    show addNamespace true (setupNs1Uri srv) name = (i, setupNs1Uri srv)
    have h2f : nsFind name (setupNs1Uri (setupNs1Uri srv)).namespaces = some i := by
      rw [setupNs1Uri_idem srv h2]; exact hf
    rw [addNamespace_eq_found true (setupNs1Uri srv) name i h2f, him,
        setupNs1Uri_idem srv h2]
  | none =>
    have him : (setupNs1Uri srv).namespaces.length % 65536 =
        (setupNs1Uri srv).namespaces.length := Nat.mod_eq_of_lt (by omega)
    have h1 : addNamespace true srv name =
        ((setupNs1Uri srv).namespaces.length,
         { setupNs1Uri srv with namespaces := (setupNs1Uri srv).namespaces ++ [name] }) := by
      rw [addNamespace_eq_append srv name hf, him]
    rw [h1]
    constructor
    · exact nsFind_append_self name _ hf
    · show addNamespace true
        { setupNs1Uri srv with namespaces := (setupNs1Uri srv).namespaces ++ [name] } name =
        ((setupNs1Uri srv).namespaces.length,
         { setupNs1Uri srv with namespaces := (setupNs1Uri srv).namespaces ++ [name] })
      have h2f : nsFind name (setupNs1Uri
          { setupNs1Uri srv with
            namespaces := (setupNs1Uri srv).namespaces ++ [name] }).namespaces =
          some (setupNs1Uri srv).namespaces.length := by
        rw [setupNs1Uri_append_eq_self srv h2 name]
        exact nsFind_append_self name _ hf
      rw [addNamespace_eq_found true _ name _ h2f, him,
          setupNs1Uri_append_eq_self srv h2 name]

/-- Witness for C4 at a concrete input: adding a fresh URI to the base
server. -/
theorem addNamespace_first_occurrence_idempotent_witness :
    nsFind (some "urn:demo") (addNamespace true baseServer (some "urn:demo")).2.namespaces =
      some (addNamespace true baseServer (some "urn:demo")).1 ∧
    addNamespace true (addNamespace true baseServer (some "urn:demo")).2 (some "urn:demo") =
      addNamespace true baseServer (some "urn:demo") :=
  addNamespace_first_occurrence_idempotent baseServer (some "urn:demo")
    (by decide) (by decide)

/-! ### Claim C10 -/

/-- Claim C10 (confirmed): once a shutdown deadline is pending
(`endTime != 0`), `setServerShutdown` returns false and leaves the whole
server — in particular `endTime` — untouched.  The `endTime` check comes
before the `shutdownDelay == 0` check, so a pending deadline is never
extended, overwritten, or converted into an immediate stop, even when
`shutdownDelay` is 0. -/
theorem setServerShutdown_preserves_deadline (now : Int) (srv : Server)
    (h : srv.endTime ≠ 0) : setServerShutdown now srv = (false, srv) := by
  unfold setServerShutdown
  rw [if_pos h]

/-- Witness for C10: a pending deadline of 100 with `shutdownDelay = 0`. -/
theorem setServerShutdown_preserves_deadline_witness :
    setServerShutdown 500 { baseServer with endTime := 100, shutdownDelay := 0 } =
      (false, { baseServer with endTime := 100, shutdownDelay := 0 }) :=
  setServerShutdown_preserves_deadline 500
    { baseServer with endTime := 100, shutdownDelay := 0 } (by decide)

/-! ### Claim C3 -/

/-- Claim C3, counterexample: when the next cyclic deadline lies 1000 ms
ahead of the current monotonic time — exactly the situation right after
the 1 Hz housekeeping callback registered by `UA_Server_run_startup` has
fired — `UA_Server_run_iterate` returns 1000, which exceeds 50.  Nothing
in the source caps the returned value; `UA_MAXTIMEOUT = 50` only bounds
the timeout handed to `eventLoop->run`. -/
theorem run_iterate_return_exceeds_fifty :
    (UA_Server_run_iterate baseServer 10000000 0).2 = 1000 ∧
    ¬((UA_Server_run_iterate baseServer 10000000 0).2 ≤ 50) := by
  decide

/-- Claim C3 as amended: `UA_Server_run_iterate` always pumps the event
loop with timeout `UA_MAXTIMEOUT = 50` ms, and its return value — the
milliseconds until the next cyclic deadline cast to `UA_UInt16` — is
bounded only by the 16-bit truncation (it is < 65536 and may exceed
50). -/
theorem run_iterate_timeout_and_truncation (srv : Server)
    (nextCyclicTime nowMonotonic : Int) :
    (UA_Server_run_iterate srv nextCyclicTime nowMonotonic).1 = UA_MAXTIMEOUT ∧
    (UA_Server_run_iterate srv nextCyclicTime nowMonotonic).2 < 65536 := by
  refine ⟨rfl, ?_⟩
  show ((Int.tdiv (nextCyclicTime - nowMonotonic) UA_DATETIME_MSEC) % 65536).toNat < 65536
  generalize Int.tdiv (nextCyclicTime - nowMonotonic) UA_DATETIME_MSEC = d
  omega

/-! ### Claim C9 -/

/-- Two started tcp connection managers whose `openConnection` succeeds. -/
def twoTcpManagers : List EventSource :=
  [{ isConnectionManager := true, protocol := "tcp", started := true, openOk := true },
   { isConnectionManager := true, protocol := "tcp", started := true, openOk := true }]

/-- Claim C9, counterexample: with two started tcp connection managers in
the event-source list, one call to `attemptReverseConnect` invokes
`openConnection` twice — the loop body has no `break` or `return` after a
successful open, so the attempt is not limited to the first manager. -/
theorem attemptReverseConnect_two_managers :
    (attemptReverseConnect twoTcpManagers UA_STATUSCODE_BADINTERNALERROR).2 = 2 ∧
    ¬((attemptReverseConnect twoTcpManagers UA_STATUSCODE_BADINTERNALERROR).2 ≤ 1) := by
  decide

/-- Claim C9 as amended: `attemptReverseConnect` invokes `openConnection`
once for every connection manager advertising tcp that precedes the first
not-yet-started tcp connection manager in the event-source list (all
started tcp managers when none is stopped); only when at most one tcp
manager is configured is `openConnection` invoked at most once. -/
theorem attemptReverseConnect_open_count (l : List EventSource) (res : Nat) :
    (attemptReverseConnect l res).2 = attemptOpenCount l := by
  induction l generalizing res with
  | nil => rfl
  | cons es rest ih =>
    by_cases hcm : es.isConnectionManager
    · by_cases hp : es.protocol == "tcp"
      · by_cases hs : es.started
        · simp [attemptReverseConnect, attemptOpenCount, tcpCM, hcm, hp, hs, ih]
        · simp [attemptReverseConnect, attemptOpenCount, tcpCM, hcm, hp, hs]
      · simp [attemptReverseConnect, attemptOpenCount, tcpCM, hcm, hp, ih]
    · simp [attemptReverseConnect, attemptOpenCount, tcpCM, hcm, ih]

/-! ### Claim C6 -/

/-- Claim C6, counterexample: with a NULL server pointer (and otherwise
valid arguments) `UA_Server_updateCertificate` returns
`UA_STATUSCODE_BADINTERNALERROR` — not the invalid-argument status code
the claim names. -/
theorem updateCertificate_null_not_invalid_argument :
    (UA_Server_updateCertificate none (some "old") (some "new") (some "key")
        true true).1 = UA_STATUSCODE_BADINTERNALERROR ∧
    (UA_Server_updateCertificate none (some "old") (some "new") (some "key")
        true true).1 ≠ UA_STATUSCODE_BADINVALIDARGUMENT := by
  decide

/-- Claim C6 as amended: when `UA_Server_updateCertificate` is called
with a NULL server or a NULL oldCertificate, newCertificate or
newPrivateKey pointer, it returns `UA_STATUSCODE_BADINTERNALERROR` (the
internal-error code, not invalid-argument) and makes no state change;
the two boolean arguments are not validated (any combination yields the
same early return). -/
theorem updateCertificate_null_args_internal_error (server : Option Server)
    (oldC newC newK : Option String) (closeSessions closeSecureChannels : Bool)
    (h : server = none ∨ oldC = none ∨ newC = none ∨ newK = none) :
    UA_Server_updateCertificate server oldC newC newK closeSessions closeSecureChannels =
      (UA_STATUSCODE_BADINTERNALERROR, server) := by
  unfold UA_Server_updateCertificate
  rcases server with _ | srv <;> rcases oldC with _ | o <;> rcases newC with _ | n <;>
    rcases newK with _ | k <;> simp_all

/-- Witness for C6: NULL newPrivateKey on an otherwise fully populated
call. -/
theorem updateCertificate_null_args_internal_error_witness :
    UA_Server_updateCertificate (some baseServer) (some "o") (some "n") none false true =
      (UA_STATUSCODE_BADINTERNALERROR, some baseServer) :=
  updateCertificate_null_args_internal_error (some baseServer) (some "o") (some "n") none
    false true (Or.inr (Or.inr (Or.inr rfl)))

/-! ### Claim C5 -/

/-- Claim C5, counterexample: on a server with an empty reverse-connect
list, a `UA_Server_addReverseConnect` call whose entry allocation fails
returns out-of-memory without adding a list entry, but the retry cyclic
callback registered just before the allocation (the list was empty) is
left installed — an observable state change relative to the pre-call
state, contradicting the claimed full preservation. -/
theorem addReverseConnect_oom_registers_retry :
    (UA_Server_addReverseConnect (some ("client.example", 4841)) false baseServer).1 =
      UA_STATUSCODE_BADOUTOFMEMORY ∧
    baseServer.retryCallbackRegistered = false ∧
    (UA_Server_addReverseConnect (some ("client.example", 4841)) false
        baseServer).2.1.retryCallbackRegistered = true := by
  decide

/-- Claim C5 as amended: on allocation failure both operations return
with no new entry — `addNamespace` yields the index-0 sentinel with the
server exactly as after the lazy ns1 initialization, and
`UA_Server_addReverseConnect` yields out-of-memory with the
reverse-connect list, the handle counter and the out-parameter untouched
— but when the reverse-connect list was empty, the retry callback
installed just before the failed allocation remains installed (it is not
rolled back). -/
theorem alloc_failure_preserves_state (srv : Server) (name : UAString)
    (hnew : nsFind name (setupNs1Uri srv).namespaces = none)
    (hostname : String) (port : Nat) :
    addNamespace false srv name = (0, setupNs1Uri srv) ∧
    (UA_Server_addReverseConnect (some (hostname, port)) false srv).1 =
      UA_STATUSCODE_BADOUTOFMEMORY ∧
    (UA_Server_addReverseConnect (some (hostname, port)) false srv).2.1.reverseConnects =
      srv.reverseConnects ∧
    (UA_Server_addReverseConnect (some (hostname, port)) false
        srv).2.1.lastReverseConnectHandle = srv.lastReverseConnectHandle ∧
    (UA_Server_addReverseConnect (some (hostname, port)) false
        srv).2.1.retryCallbackRegistered =
      (srv.reverseConnects.isEmpty || srv.retryCallbackRegistered) ∧
    (UA_Server_addReverseConnect (some (hostname, port)) false srv).2.2 = none := by
  refine ⟨addNamespace_eq_oom srv name hnew, ?_⟩
  unfold UA_Server_addReverseConnect
  by_cases he : srv.reverseConnects.isEmpty <;> simp [he]

/-- Witness for C5: a fresh URI and a reverse connect on the base
server. -/
theorem alloc_failure_preserves_state_witness :
    addNamespace false baseServer (some "urn:fresh") = (0, setupNs1Uri baseServer) ∧
    (UA_Server_addReverseConnect (some ("client.example", 4841)) false baseServer).1 =
      UA_STATUSCODE_BADOUTOFMEMORY ∧
    (UA_Server_addReverseConnect (some ("client.example", 4841)) false
        baseServer).2.1.reverseConnects = baseServer.reverseConnects ∧
    (UA_Server_addReverseConnect (some ("client.example", 4841)) false
        baseServer).2.1.lastReverseConnectHandle = baseServer.lastReverseConnectHandle ∧
    (UA_Server_addReverseConnect (some ("client.example", 4841)) false
        baseServer).2.1.retryCallbackRegistered =
      (baseServer.reverseConnects.isEmpty || baseServer.retryCallbackRegistered) ∧
    (UA_Server_addReverseConnect (some ("client.example", 4841)) false baseServer).2.2 =
      none :=
  alloc_failure_preserves_state baseServer (some "urn:fresh") (by decide)
    "client.example" 4841

/-! ### Helper lemmas: run_startup branches -/

theorem runStartupHK_namespaces (env : StartupEnv) (srv : Server) :
    (runStartupHK env srv).namespaces = srv.namespaces := by
  unfold runStartupHK; split <;> rfl

theorem runStartupHK_appUri (env : StartupEnv) (srv : Server) :
    (runStartupHK env srv).appUri = srv.appUri := by
  unfold runStartupHK; split <;> rfl

theorem runStartupHK_state (env : StartupEnv) (srv : Server) :
    (runStartupHK env srv).state = srv.state := by
  unfold runStartupHK; split <;> rfl

theorem run_startup_cases (env : StartupEnv) (srv : Server) :
    ∃ s1 : Server,
      s1.namespaces = srv.namespaces ∧ s1.appUri = srv.appUri ∧ s1.state = srv.state ∧
      (UA_Server_run_startup env srv = runStartupTail env s1 ∨
       (UA_Server_run_startup env srv = (env.elStartStatus, s1) ∧
        env.elStartStatus ≠ UA_STATUSCODE_GOOD)) := by
  by_cases hel : (runStartupHK env srv).elState = ELState.started
  · refine ⟨runStartupHK env srv, runStartupHK_namespaces env srv,
      runStartupHK_appUri env srv, runStartupHK_state env srv, Or.inl ?_⟩
    unfold UA_Server_run_startup; rw [if_pos hel]
  · by_cases hst : env.elStartStatus = UA_STATUSCODE_GOOD
    · refine ⟨{ runStartupHK env srv with elState := ELState.started },
        runStartupHK_namespaces env srv, runStartupHK_appUri env srv,
        runStartupHK_state env srv, Or.inl ?_⟩
      unfold UA_Server_run_startup; rw [if_neg hel, if_pos hst]
    · refine ⟨runStartupHK env srv, runStartupHK_namespaces env srv,
        runStartupHK_appUri env srv, runStartupHK_state env srv, Or.inr ⟨?_, hst⟩⟩
      unfold UA_Server_run_startup; rw [if_neg hel, if_neg hst]

theorem runStartupTail_state (env : StartupEnv) (s2 : Server)
    (hfresh : s2.state = UA_SERVERLIFECYCLE_FRESH) :
    (runStartupTail env s2).2.state = UA_SERVERLIFECYCLE_FRESH := by
  have hs := setupNs1Uri_state s2
  unfold runStartupTail
  split
  · show (setupNs1Uri s2).state = _; rw [hs, hfresh]
  · split
    · show (setupNs1Uri s2).state = _; rw [hs, hfresh]
    · rfl

/-- The NS1 slot of a server whose slot-1 reference is known. -/
theorem ns1Slot_eq_of_get (s : Server) (u : UAString) (h : s.namespaces[1]? = some u) :
    ns1Slot s = u := by
  unfold ns1Slot; rw [h]

theorem runStartupTail_ns1 (env : StartupEnv) (s2 : Server)
    (h2 : 2 ≤ s2.namespaces.length) (h1 : s2.namespaces[1]? = some none)
    (hres : (runStartupTail env s2).1 = UA_STATUSCODE_GOOD) :
    ns1Slot (runStartupTail env s2).2 = s2.appUri := by
  have hget := setupNs1Uri_ns1_of_null s2 h2 h1
  unfold runStartupTail at hres ⊢
  split at hres
  · next hw => exact absurd hres hw
  · next hw =>
    rw [if_neg hw]
    split
    · exact ns1Slot_eq_of_get _ _ hget
    · exact ns1Slot_eq_of_get _ _ hget

/-! ### Claim C2 -/

/-- A startup environment in which every external call succeeds. -/
def envOk : StartupEnv :=
  { hkCallbackId := 7, elStartStatus := UA_STATUSCODE_GOOD,
    writeStatus := UA_STATUSCODE_GOOD, now := 1700000000 }

/-- Claim C2, counterexample: `UA_Server_run_startup` on a fresh server
with every external call succeeding returns `UA_STATUSCODE_GOOD`, yet the
final lifecycle state is `UA_SERVERLIFECYCLE_FRESH` — not strictly past
*fresh*: the function's closing assignment is
`server->state = UA_SERVERLIFECYCLE_FRESH`. -/
theorem run_startup_not_past_fresh :
    (UA_Server_run_startup envOk baseServer).1 = UA_STATUSCODE_GOOD ∧
    baseServer.state = UA_SERVERLIFECYCLE_FRESH ∧
    ¬(UA_SERVERLIFECYCLE_FRESH < (UA_Server_run_startup envOk baseServer).2.state) := by
  decide

/-- Claim C2 as amended: after `UA_Server_run_startup` returns success on
a fresh server, the lifecycle state is still *fresh* (the function ends
by assigning `UA_SERVERLIFECYCLE_FRESH`), so the early-return idempotence
guard `state > UA_SERVERLIFECYCLE_FRESH` is never enabled by
`run_startup` itself. -/
theorem run_startup_success_state_fresh (env : StartupEnv) (srv : Server)
    (hfresh : srv.state = UA_SERVERLIFECYCLE_FRESH)
    (hres : (UA_Server_run_startup env srv).1 = UA_STATUSCODE_GOOD) :
    (UA_Server_run_startup env srv).2.state = UA_SERVERLIFECYCLE_FRESH := by
  obtain ⟨s1, -, -, hstt, hcase | ⟨heq, hne⟩⟩ := run_startup_cases env srv
  · rw [hcase]
    exact runStartupTail_state env s1 (hstt.trans hfresh)
  · rw [heq] at hres; exact absurd hres hne

/-- Witness for C2: the fully successful startup on the base server. -/
theorem run_startup_success_state_fresh_witness :
    (UA_Server_run_startup envOk baseServer).2.state = UA_SERVERLIFECYCLE_FRESH :=
  run_startup_success_state_fresh envOk baseServer (by decide) (by decide)

/-! ### Claim C8 -/

/-- Helper: the server returned by an `addNamespace` call has the same
NS1 slot as the one produced by its initial `setupNs1Uri`. -/
theorem addNamespace_ns1 (allocOk : Bool) (srv : Server) (name : UAString)
    (h2 : 2 ≤ srv.namespaces.length) :
    ns1Slot (addNamespace allocOk srv name).2 = ns1Slot (setupNs1Uri srv) := by
  cases hf : nsFind name (setupNs1Uri srv).namespaces with
  | some i => rw [addNamespace_eq_found allocOk srv name i hf]
  | none =>
    cases allocOk with
    | false => rw [addNamespace_eq_oom srv name hf]
    | true =>
      rw [addNamespace_eq_append srv name hf]
      show ns1Slot { setupNs1Uri srv with
        namespaces := (setupNs1Uri srv).namespaces ++ [name] } = ns1Slot (setupNs1Uri srv)
      have hlen : 1 < (setupNs1Uri srv).namespaces.length := by
        rw [setupNs1Uri_length]; omega
      unfold ns1Slot
      rw [show ({ setupNs1Uri srv with
            namespaces := (setupNs1Uri srv).namespaces ++ [name] } : Server).namespaces =
          (setupNs1Uri srv).namespaces ++ [name] from rfl,
          List.getElem?_append_left hlen]

/-- Helper: `getNamespaceByName` always returns the post-`setupNs1Uri`
server. -/
theorem getNamespaceByName_server (srv : Server) (uri : UAString) :
    (getNamespaceByName srv uri).2.2 = setupNs1Uri srv := by
  simp only [getNamespaceByName]
  split <;> rfl

/-- Helper: `getNamespaceByIndex` always returns the post-`setupNs1Uri`
server. -/
theorem getNamespaceByIndex_server (srv : Server) (idx : Nat) :
    (getNamespaceByIndex srv idx).2 = setupNs1Uri srv := by
  simp only [getNamespaceByIndex]
  split
  · rfl
  · split <;> rfl

/-- A server whose NS1 URI was customized while the configured
application URI is empty (the NULL string). -/
def customNs1Server : Server :=
  { baseServer with
    appUri := none,
    namespaces := [some "http://opcfoundation.org/UA/", some "urn:custom"] }

/-- Claim C8, counterexample: when the user pre-set a custom non-empty
NS1 URI and the configured application URI is empty, an observable
namespace read (`getNamespaceByIndex`) leaves NS1 non-empty although the
application URI is empty — the claimed equivalence fails. -/
theorem ns1_iff_fails_for_custom_ns1 :
    ¬((0 < uaLen (ns1Slot (getNamespaceByIndex customNs1Server 0).2)) ↔
      (0 < uaLen (getNamespaceByIndex customNs1Server 0).2.appUri)) := by
  decide

/-- Claim C8 as amended: provided namespace slot 1 is unset (a NULL
string, the state produced by `UA_Server_init`) before the call, then
after `addNamespace`, `getNamespaceByName` or `getNamespaceByIndex`
returns, and after `UA_Server_run_startup` returns success, namespace
index 1 is non-empty iff the configured application URI is non-empty.
(When NS1 was pre-set to a custom string, the lazy initialization leaves
it alone and the equivalence need not hold.) -/
theorem ns1_populated_after_observable_ops (srv : Server)
    (h2 : 2 ≤ srv.namespaces.length)
    (h1 : srv.namespaces[1]? = some none) :
    (∀ allocOk name, (0 < uaLen (ns1Slot (addNamespace allocOk srv name).2)) ↔
        (0 < uaLen srv.appUri)) ∧
    (∀ uri, (0 < uaLen (ns1Slot (getNamespaceByName srv uri).2.2)) ↔
        (0 < uaLen srv.appUri)) ∧
    (∀ idx, (0 < uaLen (ns1Slot (getNamespaceByIndex srv idx).2)) ↔
        (0 < uaLen srv.appUri)) ∧
    (∀ env, (UA_Server_run_startup env srv).1 = UA_STATUSCODE_GOOD →
        ((0 < uaLen (ns1Slot (UA_Server_run_startup env srv).2)) ↔
         (0 < uaLen srv.appUri))) := by
  have hset : ns1Slot (setupNs1Uri srv) = srv.appUri :=
    ns1Slot_eq_of_get _ _ (setupNs1Uri_ns1_of_null srv h2 h1)
  refine ⟨?_, ?_, ?_, ?_⟩
  · intro allocOk name
    rw [addNamespace_ns1 allocOk srv name h2, hset]
  · intro uri
    rw [getNamespaceByName_server srv uri, hset]
  · intro idx
    rw [getNamespaceByIndex_server srv idx, hset]
  · intro env hres
    obtain ⟨s1, hns, hap, -, hcase | ⟨heq, hne⟩⟩ := run_startup_cases env srv
    · rw [hcase] at hres ⊢
      rw [runStartupTail_ns1 env s1 (by rw [hns]; exact h2) (by rw [hns]; exact h1) hres,
          hap]
    · rw [heq] at hres; exact absurd hres hne

/-- Witness for C8: the `getNamespaceByIndex` conjunct on the base
server, whose NS1 slot is unset and whose application URI is
non-empty. -/
theorem ns1_populated_after_observable_ops_witness :
    (0 < uaLen (ns1Slot (getNamespaceByIndex baseServer 0).2)) ↔
      (0 < uaLen baseServer.appUri) :=
  (ns1_populated_after_observable_ops baseServer (by decide) (by decide)).2.2.1 0

/-! ### Helper lemmas: the certificate-rotation endpoint loop

The endpoint loop rewrites the policy list only through
`modifyIdx _ _ (swapCert newC newK)`.  `PolsRel` captures the resulting
relation: every entry is either untouched or has the new certificate and
key swapped in.  It is preserved along the loop, keeps `policyUri`s (and
hence URI lookups) intact, and once an entry is swapped it stays
swapped. -/

inductive PolsRel (newC newK : String) :
    List SecurityPolicy → List SecurityPolicy → Prop
  | nil : PolsRel newC newK [] []
  | keep (p : SecurityPolicy) {l l' : List SecurityPolicy} :
      PolsRel newC newK l l' → PolsRel newC newK (p :: l) (p :: l')
  | swap (p : SecurityPolicy) {l l' : List SecurityPolicy} :
      PolsRel newC newK l l' → PolsRel newC newK (p :: l) (swapCert newC newK p :: l')

theorem polsRel_refl (newC newK : String) : ∀ l, PolsRel newC newK l l
  | [] => PolsRel.nil
  | p :: rest => PolsRel.keep p (polsRel_refl newC newK rest)

theorem polsRel_trans {newC newK : String} {l1 l2 l3 : List SecurityPolicy}
    (h12 : PolsRel newC newK l1 l2) (h23 : PolsRel newC newK l2 l3) :
    PolsRel newC newK l1 l3 := by
  induction h12 generalizing l3 with
  | nil => exact h23
  | keep p h ih =>
    cases h23 with
    | keep _ h' => exact PolsRel.keep p (ih h')
    | swap _ h' => exact PolsRel.swap p (ih h')
  | swap p h ih =>
    cases h23 with
    | keep _ h' => exact PolsRel.swap p (ih h')
    | swap _ h' => exact PolsRel.swap p (ih h')

theorem polsRel_findUri {newC newK : String} (uri : String)
    {l l' : List SecurityPolicy} (h : PolsRel newC newK l l') :
    getSecurityPolicyByUri uri l = getSecurityPolicyByUri uri l' := by
  induction h with
  | nil => rfl
  | keep p h ih => simp only [getSecurityPolicyByUri, ih]
  | swap p h ih =>
    show getSecurityPolicyByUri uri (p :: _) =
      getSecurityPolicyByUri uri (swapCert newC newK p :: _)
    simp only [getSecurityPolicyByUri, ih, swapCert]

theorem polsRel_get {newC newK : String} {l l' : List SecurityPolicy}
    (h : PolsRel newC newK l l') (j : Nat) (p : SecurityPolicy) (hp : l[j]? = some p) :
    l'[j]? = some p ∨ l'[j]? = some (swapCert newC newK p) := by
  induction h generalizing j with
  | nil => simp at hp
  | keep q h ih =>
    cases j with
    | zero => simp at hp ⊢; left; exact hp
    | succ m => simp at hp ⊢; exact ih m hp
  | swap q h ih =>
    cases j with
    | zero => simp at hp ⊢; right; rw [← hp]
    | succ m => simp at hp ⊢; exact ih m hp

theorem polsRel_get_swapped {newC newK : String} {l l' : List SecurityPolicy}
    (h : PolsRel newC newK l l') (j : Nat) (q : SecurityPolicy) (hq : l[j]? = some q)
    (hc : q.localCertificate = newC) (hk : q.privateKey = newK) :
    ∃ q', l'[j]? = some q' ∧ q'.localCertificate = newC ∧ q'.privateKey = newK := by
  rcases polsRel_get h j q hq with h' | h'
  · exact ⟨q, h', hc, hk⟩
  · exact ⟨swapCert newC newK q, h', rfl, rfl⟩

theorem polsRel_modifyIdx (newC newK : String) :
    ∀ (l : List SecurityPolicy) (j : Nat),
      PolsRel newC newK l (modifyIdx l j (swapCert newC newK))
  | [], _ => PolsRel.nil
  | p :: rest, 0 => PolsRel.swap p (polsRel_refl newC newK rest)
  | p :: rest, j + 1 => PolsRel.keep p (polsRel_modifyIdx newC newK rest j)

theorem modifyIdx_get {α : Type} (f : α → α) :
    ∀ (l : List α) (j : Nat), (modifyIdx l j f)[j]? = (l[j]?).map f
  | [], j => by simp [modifyIdx]
  | x :: rest, 0 => by simp [modifyIdx]
  | x :: rest, j + 1 => by simp [modifyIdx, modifyIdx_get f rest j]

theorem getSecurityPolicyByUri_get (uri : String) (l : List SecurityPolicy) :
    ∀ (j : Nat), getSecurityPolicyByUri uri l = some j →
      ∃ p, l[j]? = some p ∧ (uri == p.policyUri) = true := by
  induction l with
  | nil => intro j h; simp [getSecurityPolicyByUri] at h
  | cons p rest ih =>
    intro j h
    simp only [getSecurityPolicyByUri] at h
    split at h
    · next hc => cases h; exact ⟨p, by simp, hc⟩
    · obtain ⟨m, hm, rfl⟩ := Option.map_eq_some'.mp h
      obtain ⟨q, hq, hqc⟩ := ih m hm
      exact ⟨q, by simpa using hq, hqc⟩

theorem updateEndpointsLoop_cons_none (oldC newC newK : String) (ed0 : Endpoint)
    (rest : List Endpoint) (pols : List SecurityPolicy)
    (hm : (ed0.serverCertificate == oldC) = true)
    (hf : getSecurityPolicyByUri ed0.securityPolicyUri pols = none) :
    updateEndpointsLoop oldC newC newK (ed0 :: rest) pols =
      (UA_STATUSCODE_BADINTERNALERROR,
       { ed0 with serverCertificate := newC } :: rest, pols) := by
  simp only [updateEndpointsLoop, hm, hf, if_true]

theorem updateEndpointsLoop_cons_some (oldC newC newK : String) (ed0 : Endpoint)
    (rest : List Endpoint) (pols : List SecurityPolicy) (j : Nat)
    (hm : (ed0.serverCertificate == oldC) = true)
    (hf : getSecurityPolicyByUri ed0.securityPolicyUri pols = some j) :
    updateEndpointsLoop oldC newC newK (ed0 :: rest) pols =
      ((updateEndpointsLoop oldC newC newK rest
          (modifyIdx pols j (swapCert newC newK))).1,
       { ed0 with serverCertificate := newC } ::
         (updateEndpointsLoop oldC newC newK rest
           (modifyIdx pols j (swapCert newC newK))).2.1,
       (updateEndpointsLoop oldC newC newK rest
         (modifyIdx pols j (swapCert newC newK))).2.2) := by
  simp only [updateEndpointsLoop, hm, hf, if_true]

theorem updateEndpointsLoop_cons_skip (oldC newC newK : String) (ed0 : Endpoint)
    (rest : List Endpoint) (pols : List SecurityPolicy)
    (hm : (ed0.serverCertificate == oldC) = false) :
    updateEndpointsLoop oldC newC newK (ed0 :: rest) pols =
      ((updateEndpointsLoop oldC newC newK rest pols).1,
       ed0 :: (updateEndpointsLoop oldC newC newK rest pols).2.1,
       (updateEndpointsLoop oldC newC newK rest pols).2.2) := by
  simp only [updateEndpointsLoop, hm, Bool.false_eq_true, if_false]

theorem updateEndpointsLoop_spec (oldC newC newK : String) :
    ∀ (eds : List Endpoint) (pols : List SecurityPolicy),
      (updateEndpointsLoop oldC newC newK eds pols).1 = UA_STATUSCODE_GOOD →
      PolsRel newC newK pols (updateEndpointsLoop oldC newC newK eds pols).2.2 ∧
      ∀ (i : Nat) (ed : Endpoint), eds[i]? = some ed →
        (ed.serverCertificate == oldC) = true →
        (updateEndpointsLoop oldC newC newK eds pols).2.1[i]? =
          some { ed with serverCertificate := newC } ∧
        ∃ j q, getSecurityPolicyByUri ed.securityPolicyUri
                 (updateEndpointsLoop oldC newC newK eds pols).2.2 = some j ∧
               (updateEndpointsLoop oldC newC newK eds pols).2.2[j]? = some q ∧
               q.localCertificate = newC ∧ q.privateKey = newK := by
  intro eds
  induction eds with
  | nil =>
    intro pols _
    refine ⟨polsRel_refl newC newK pols, ?_⟩
    intro i ed hed
    simp at hed
  | cons ed0 rest ih =>
    intro pols hst
    by_cases hm : (ed0.serverCertificate == oldC) = true
    · cases hf : getSecurityPolicyByUri ed0.securityPolicyUri pols with
      | none =>
        rw [updateEndpointsLoop_cons_none oldC newC newK ed0 rest pols hm hf] at hst
        have hbad : UA_STATUSCODE_BADINTERNALERROR = UA_STATUSCODE_GOOD := hst
        exact absurd hbad (by decide)
      | some j =>
        rw [updateEndpointsLoop_cons_some oldC newC newK ed0 rest pols j hm hf] at hst ⊢
        obtain ⟨hrel, hall⟩ := ih (modifyIdx pols j (swapCert newC newK)) hst
        have hrelFull : PolsRel newC newK pols
            (updateEndpointsLoop oldC newC newK rest
              (modifyIdx pols j (swapCert newC newK))).2.2 :=
          polsRel_trans (polsRel_modifyIdx newC newK pols j) hrel
        refine ⟨hrelFull, ?_⟩
        intro i ed hed hcert
        cases i with
        | zero =>
          simp only [List.getElem?_cons_zero, Option.some.injEq] at hed
          subst hed
          refine ⟨by simp, ?_⟩
          obtain ⟨p, hp, -⟩ := getSecurityPolicyByUri_get ed0.securityPolicyUri pols j hf
          have hfind : getSecurityPolicyByUri ed0.securityPolicyUri
              (updateEndpointsLoop oldC newC newK rest
                (modifyIdx pols j (swapCert newC newK))).2.2 = some j := by
            rw [← polsRel_findUri ed0.securityPolicyUri hrel,
                ← polsRel_findUri ed0.securityPolicyUri (polsRel_modifyIdx newC newK pols j)]
            exact hf
          have hmod : (modifyIdx pols j (swapCert newC newK))[j]? =
              some (swapCert newC newK p) := by
            rw [modifyIdx_get (swapCert newC newK) pols j, hp]
            rfl
          obtain ⟨q', hq', hc', hk'⟩ :=
            polsRel_get_swapped hrel j (swapCert newC newK p) hmod rfl rfl
          exact ⟨j, q', hfind, hq', hc', hk'⟩
        | succ m =>
          simp only [List.getElem?_cons_succ] at hed
          obtain ⟨hend, hpol⟩ := hall m ed hed hcert
          exact ⟨by simpa using hend, hpol⟩
    · have hm' : (ed0.serverCertificate == oldC) = false := by
        cases hbe : ed0.serverCertificate == oldC
        · rfl
        · exact absurd hbe hm
      rw [updateEndpointsLoop_cons_skip oldC newC newK ed0 rest pols hm'] at hst ⊢
      obtain ⟨hrel, hall⟩ := ih pols hst
      refine ⟨hrel, ?_⟩
      intro i ed hed hcert
      cases i with
      | zero =>
        simp only [List.getElem?_cons_zero, Option.some.injEq] at hed
        subst hed
        exact absurd hcert hm
      | succ m =>
        simp only [List.getElem?_cons_succ] at hed
        obtain ⟨hend, hpol⟩ := hall m ed hed hcert
        exact ⟨by simpa using hend, hpol⟩

/-! ### Claim C7 -/

/-- Claim C7 (confirmed): after `UA_Server_updateCertificate(old, new,
key, true, true)` returns success, no remaining session and no remaining
secure channel references the old certificate (through its channel's
security policy), and every endpoint whose `serverCertificate` equaled
the old certificate holds the new certificate while the security policy
matching its URI holds the new certificate and private key. -/
theorem updateCertificate_rotates_certificates (srv : Server) (oldC newC newK : String)
    (res : Nat) (srv' : Server)
    (h : UA_Server_updateCertificate (some srv) (some oldC) (some newC) (some newK)
           true true = (res, some srv'))
    (hres : res = UA_STATUSCODE_GOOD) :
    (∀ se ∈ srv'.sessions, se.channelPolicyLocalCert ≠ oldC) ∧
    (∀ ce ∈ srv'.channels, ce.policyLocalCert ≠ oldC) ∧
    (∀ (i : Nat) (ed : Endpoint), srv.endpoints[i]? = some ed →
       ed.serverCertificate = oldC →
       srv'.endpoints[i]? = some { ed with serverCertificate := newC } ∧
       ∃ j q, getSecurityPolicyByUri ed.securityPolicyUri srv'.securityPolicies =
                some j ∧
              srv'.securityPolicies[j]? = some q ∧
              q.localCertificate = newC ∧ q.privateKey = newK) := by
  subst hres
  have hmain : UA_Server_updateCertificate (some srv) (some oldC) (some newC)
      (some newK) true true =
      ((updateEndpointsLoop oldC newC newK srv.endpoints srv.securityPolicies).1,
       some { srv with
         sessions := srv.sessions.filter
           (fun se => !(oldC == se.channelPolicyLocalCert)),
         channels := srv.channels.filter (fun ce => !(ce.policyLocalCert == oldC)),
         endpoints :=
           (updateEndpointsLoop oldC newC newK srv.endpoints srv.securityPolicies).2.1,
         securityPolicies :=
           (updateEndpointsLoop oldC newC newK srv.endpoints
             srv.securityPolicies).2.2 }) := rfl
  rw [hmain] at h
  simp only [Prod.mk.injEq, Option.some.injEq] at h
  obtain ⟨hst, hsrv⟩ := h
  subst hsrv
  refine ⟨?_, ?_, ?_⟩
  · intro se hse
    have hmem := List.mem_filter.mp hse
    intro hcontra
    rw [hcontra] at hmem
    simp at hmem
  · intro ce hce
    have hmem := List.mem_filter.mp hce
    intro hcontra
    rw [hcontra] at hmem
    simp at hmem
  · intro i ed hi hcert
    obtain ⟨-, hall⟩ :=
      updateEndpointsLoop_spec oldC newC newK srv.endpoints srv.securityPolicies hst
    exact hall i ed hi (by rw [hcert]; exact beq_self_eq_true oldC)

/-- A server with one session, one channel, one endpoint and one security
policy, all bound to the certificate "oldcert". -/
def certServer : Server :=
  { baseServer with
    sessions := [{ authToken := 1, channelPolicyLocalCert := "oldcert" }],
    channels := [{ policyLocalCert := "oldcert" }],
    endpoints := [{ serverCertificate := "oldcert",
                    securityPolicyUri := "http://policy#basic" }],
    securityPolicies := [{ policyUri := "http://policy#basic",
                           localCertificate := "oldcert", privateKey := "k0" }] }

/-- The state of `certServer` after rotating "oldcert" to "newcert". -/
def certServerAfter : Server :=
  { baseServer with
    sessions := [],
    channels := [],
    endpoints := [{ serverCertificate := "newcert",
                    securityPolicyUri := "http://policy#basic" }],
    securityPolicies := [{ policyUri := "http://policy#basic",
                           localCertificate := "newcert", privateKey := "newkey" }] }

/-- Witness for C7: rotating the certificate of `certServer`. -/
theorem updateCertificate_rotates_certificates_witness :
    (∀ se ∈ certServerAfter.sessions, se.channelPolicyLocalCert ≠ "oldcert") ∧
    (∀ ce ∈ certServerAfter.channels, ce.policyLocalCert ≠ "oldcert") ∧
    (∀ (i : Nat) (ed : Endpoint), certServer.endpoints[i]? = some ed →
       ed.serverCertificate = "oldcert" →
       certServerAfter.endpoints[i]? = some { ed with serverCertificate := "newcert" } ∧
       ∃ j q, getSecurityPolicyByUri ed.securityPolicyUri
                certServerAfter.securityPolicies = some j ∧
              certServerAfter.securityPolicies[j]? = some q ∧
              q.localCertificate = "newcert" ∧ q.privateKey = "newkey") :=
  updateCertificate_rotates_certificates certServer "oldcert" "newcert" "newkey"
    UA_STATUSCODE_GOOD certServerAfter (by decide) rfl

end UAServer
